import Mathlib

/-!
Verification of the object-reuse pool in `container/pool/pool.go`.

The pool stores items wrapped with an absolute expiration timestamp in
milliseconds (`0` = never expires).  Operations `Put`, `Get`, `Clear`,
`Close` and the background sweep `checkExpireItems` are embedded below as
pure functions over an explicit pool state.  Wall-clock readings
(`vtime.TimestampMilli()`) become explicit `now : Int` parameters;
`time.Duration` values are `Int` nanoseconds and Go's truncating integer
division `/` is `Int.tdiv`.  The `ExpireFunc` destruction callback is
modelled by returning the list of values passed to it, in call order;
the `NewFunc` construction callback is modelled by the result
(`Option value × Option error`, mirroring Go's `(interface, error)`
pair) that its single invocation would produce.

The item store (`utils/container/list`) and the helper packages
(`utils/container/type`, `utils/os/time`, `utils/os/timer`) are part of
the repository but their sources are not available here; they are
modelled from the spec: the store is an ordered sequence with
`PushBack`, `PushFront`, `PopFront` (returning "empty" on an empty
store) and `RemoveAll`; the `closed` flag starts unset; `timer.Exit()`
terminates the current sweep invocation and deregisters the recurring
task (spec 4.3: the closed branch is terminal and the open-pool steps
run only "Else (pool still open)").
-/

namespace GoPool

/-- Embeds Go struct `poolItem`: `expire` is the expiration timestamp in
milliseconds (`0` = never expires), `value` the opaque payload. -/
structure PoolItem (α : Type) where
  expire : Int
  value : α
deriving Repr, DecidableEq

/-- The mutable state of a `Pool`: the item store (front of the Go list is
the head of the Lean list) and the `closed` flag.  The configuration
(`TTL`, presence of `NewFunc` / `ExpireFunc`) is fixed at construction
and passed to each operation separately. -/
structure PoolState (α : Type) where
  items : List (PoolItem α)
  closed : Bool
deriving Repr, DecidableEq

/-- Embeds `New`: fresh store, closed flag unset (modelled from the spec:
`list.New(true)` yields an empty store and `vtype.NewBool()` an unset
flag). -/
def newPool (α : Type) : PoolState α := ⟨[], false⟩

/-- The expiration timestamp computed by `Put` (pool.go lines 76-82):
`0` when `TTL == 0`, otherwise `TimestampMilli() + TTL.Nanoseconds()/1000000`
with Go's truncating division. -/
def computeExpire (ttl now : Int) : Int :=
  if ttl == 0 then 0 else now + Int.tdiv ttl 1000000

/-- Embeds `Pool.Put` (pool.go lines 69-85).  Returns the new state and the
Go error (`none` = nil).  `ttl` is the configured TTL in nanoseconds and
`now` the `TimestampMilli()` reading. -/
def put {α : Type} (ttl now : Int) (s : PoolState α) (v : α) :
    PoolState α × Option String :=
  if s.closed then (s, some "pool is closed")
  else ({ s with items := s.items ++ [⟨computeExpire ttl now, v⟩] }, none)

/-- Embeds the pop-front loop of `Pool.Get` (pool.go lines 106-115):
pops items until one passes `expire == 0 || expire > now` (returned as
`some` selected item) or the store is exhausted (`none`); expired items
popped along the way are discarded silently.  Returns the remaining
store and the selected item. -/
def getLoop {α : Type} (now : Int) :
    List (PoolItem α) → List (PoolItem α) × Option (PoolItem α)
  | [] => ([], none)
  | i :: rest =>
    if i.expire == 0 || i.expire > now then (rest, some i)
    else getLoop now rest

/-- Embeds `Pool.Get` (pool.go lines 105-120).  `newFunc` is the result the
configured `NewFunc` would return when invoked (`none` = `NewFunc` is
nil); the Go return pair `(interface, error)` becomes
`Option α × Option String`.  When the pool is closed the loop body never
runs; otherwise the loop pops until a valid item is found or the store
is exhausted, then falls through to `NewFunc` / "pool is empty". -/
def get {α : Type} (newFunc : Option (Option α × Option String)) (now : Int)
    (s : PoolState α) : PoolState α × (Option α × Option String) :=
  if s.closed then
    (s, match newFunc with
        | some r => r
        | none => (none, some "pool is empty"))
  else
    match getLoop now s.items with
    | (rest, some i) => ({ s with items := rest }, (some i.value, none))
    | (rest, none) =>
      ({ s with items := rest },
       match newFunc with
       | some r => r
       | none => (none, some "pool is empty"))

/-- Embeds the `PopFront`-until-empty drain loop shared by `Clear`'s
destruct branch (pool.go lines 90-96) and the closed branch of the sweep
(lines 140-147): pops every item off the front, collecting the values
passed to `ExpireFunc` in call order. -/
def popAllLoop {α : Type} :
    List (PoolItem α) → List (PoolItem α) × List α
  | [] => ([], [])
  | i :: rest =>
    let p := popAllLoop rest
    (p.1, i.value :: p.2)

/-- Embeds `Pool.Clear` (pool.go lines 88-101).  `hasExpireFunc` says
whether `ExpireFunc` is non-nil; the second component is the list of
values passed to `ExpireFunc`, in call order. -/
def clear {α : Type} (hasExpireFunc : Bool) (s : PoolState α) :
    PoolState α × List α :=
  if hasExpireFunc then
    let p := popAllLoop s.items
    ({ s with items := p.1 }, p.2)
  else ({ s with items := [] }, [])

/-- Embeds `Pool.Close` (pool.go lines 130-132): sets the closed flag. -/
def close {α : Type} (s : PoolState α) : PoolState α :=
  { s with closed := true }

/-- Embeds `Pool.Size` (pool.go lines 123-125). -/
def size {α : Type} (s : PoolState α) : Nat :=
  s.items.length

/-- Embeds the expiration pass of `checkExpireItems` (pool.go lines
155-178): `latestExpire` starts at `-1`; each round first breaks when
`latestExpire > now`, then pops the front item, records its `expire`
into `latestExpire`, pushes it back to the front and breaks when
`expire > now`, and otherwise passes its value to `ExpireFunc` (when
present) and continues.  Returns the remaining store and the values
passed to `ExpireFunc`, in call order. -/
def sweepLoop {α : Type} (hasExpireFunc : Bool) (now : Int) :
    Int → List (PoolItem α) → List (PoolItem α) × List α
  | latestExpire, items =>
    if latestExpire > now then (items, [])
    else
      match items with
      | [] => ([], [])
      | i :: rest =>
        if i.expire > now then (i :: rest, [])
        else
          let p := sweepLoop hasExpireFunc now i.expire rest
          (p.1, if hasExpireFunc then i.value :: p.2 else p.2)

/-- Embeds `Pool.checkExpireItems` (pool.go lines 135-179), one sweep
invocation.  Result: the new state, the values passed to `ExpireFunc`
(in call order), and whether `timer.Exit()` was called.  `timer.Exit()`
is modelled from the spec as terminating the invocation (spec 4.3: the
closed branch ends the task and the open-pool steps run only when the
pool is still open). -/
def checkExpireItems {α : Type} (ttl : Int) (hasExpireFunc : Bool)
    (now : Int) (s : PoolState α) : PoolState α × List α × Bool :=
  if s.closed then
    if hasExpireFunc then
      let p := popAllLoop s.items
      ({ s with items := p.1 }, p.2, true)
    else (s, [], true)
  else if ttl == 0 then (s, [], false)
  else
    let p := sweepLoop hasExpireFunc now (-1) s.items
    ({ s with items := p.1 }, p.2, false)

/-! Helper lemmas about the loops. -/

/-- The drain loop empties the store and passes every item's value to the
callback exactly once, front to back. -/
theorem popAllLoop_eq {α : Type} (items : List (PoolItem α)) :
    popAllLoop items = ([], items.map PoolItem.value) := by
  induction items with
  | nil => rfl
  | cons i rest ih => simp [popAllLoop, ih]

/-- Unfolding lemma for one round of the `Get` pop loop, with the Bool
validity check restated as a proposition. -/
theorem getLoop_cons {α : Type} (now : Int) (j : PoolItem α)
    (rest : List (PoolItem α)) :
    getLoop now (j :: rest) =
      if j.expire = 0 ∨ now < j.expire then (rest, some j)
      else getLoop now rest := by
  simp [getLoop]

/-- Soundness of the `Get` pop loop: a selected item passes the validity
check against the captured clock reading. -/
theorem getLoop_sel_valid {α : Type} (now : Int) (items : List (PoolItem α))
    (i : PoolItem α) (h : (getLoop now items).2 = some i) :
    i.expire = 0 ∨ now < i.expire := by
  induction items with
  | nil => simp [getLoop] at h
  | cons j rest ih =>
    rw [getLoop_cons] at h
    by_cases hj : j.expire = 0 ∨ now < j.expire
    · rw [if_pos hj] at h
      cases h
      exact hj
    · rw [if_neg hj] at h
      exact ih h

/-- When the `Get` pop loop selects no item it has drained the store. -/
theorem getLoop_none_empty {α : Type} (now : Int) (items : List (PoolItem α))
    (h : (getLoop now items).2 = none) : (getLoop now items).1 = [] := by
  induction items with
  | nil => rfl
  | cons j rest ih =>
    rw [getLoop_cons] at h ⊢
    by_cases hj : j.expire = 0 ∨ now < j.expire
    · rw [if_pos hj] at h
      cases h
    · rw [if_neg hj] at h ⊢
      exact ih h

/-- The sweep pass over expired items in front of a live item: every
expired item up front is popped and destroyed, the first live item is
pushed back and the items behind it are untouched. -/
theorem sweepLoop_stop_frame {α : Type} (hasExpireFunc : Bool) (now : Int)
    (pre post : List (PoolItem α)) (i : PoolItem α) :
    ∀ le : Int, le ≤ now → (∀ j ∈ pre, j.expire ≤ now) → now < i.expire →
    sweepLoop hasExpireFunc now le (pre ++ i :: post) =
      (i :: post, if hasExpireFunc then pre.map PoolItem.value else []) := by
  induction pre with
  | nil =>
    intro le hle _ hi
    simp only [List.nil_append, sweepLoop]
    rw [if_neg (by omega), if_pos (by omega)]
    simp
  | cons j rest ih =>
    intro le hle hpre hi
    have hj : j.expire ≤ now := hpre j (by simp)
    simp only [List.cons_append, sweepLoop, List.append_eq]
    rw [if_neg (by omega), if_neg (by omega)]
    rw [ih j.expire hj (fun k hk => hpre k (by simp [hk])) hi]
    cases hasExpireFunc <;> simp

/-- The sweep pass over a store in which every item is expired drains it
completely, destroying every value in order. -/
theorem sweepLoop_all_expired {α : Type} (hasExpireFunc : Bool) (now : Int)
    (items : List (PoolItem α)) :
    ∀ le : Int, le ≤ now → (∀ j ∈ items, j.expire ≤ now) →
    sweepLoop hasExpireFunc now le items =
      ([], if hasExpireFunc then items.map PoolItem.value else []) := by
  induction items with
  | nil =>
    intro le hle _
    simp only [sweepLoop]
    rw [if_neg (by omega)]
    simp
  | cons j rest ih =>
    intro le hle hall
    have hj : j.expire ≤ now := hall j (by simp)
    simp only [sweepLoop]
    rw [if_neg (by omega), if_neg (by omega)]
    rw [ih j.expire hj (fun k hk => hall k (by simp [hk]))]
    cases hasExpireFunc <;> simp

/-! Claim theorems. -/

/-- Claim C7: on a pool whose closed flag is set, `Put` fails with the
"pool is closed" error and leaves the store unchanged; on an open pool it
appends exactly one wrapped item to the back of the store and succeeds. -/
theorem C7_put_closed_or_append {α : Type} (ttl now : Int) (s : PoolState α)
    (v : α) :
    (s.closed = true → put ttl now s v = (s, some "pool is closed")) ∧
    (s.closed = false →
      put ttl now s v =
        ({ s with items := s.items ++ [⟨computeExpire ttl now, v⟩] }, none)) := by
  constructor
  · intro h
    simp [put, h]
  · intro h
    simp [put, h]

/-- Witness for C7 at a concrete closed pool and a concrete open pool. -/
theorem C7_put_closed_or_append_witness :
    put (α := Nat) 0 100 ⟨[], true⟩ 7 = (⟨[], true⟩, some "pool is closed") ∧
    put (α := Nat) 0 100 ⟨[], false⟩ 7 = (⟨[⟨0, 7⟩], false⟩, none) :=
  ⟨(C7_put_closed_or_append 0 100 ⟨[], true⟩ 7).1 rfl,
   (C7_put_closed_or_append 0 100 ⟨[], false⟩ 7).2 rfl⟩

/-- Claim C8: `Clear` with a destruction capability pops front until the
store is empty, passing every item's value to `ExpireFunc` exactly once
(front-to-back pop order); without the capability it empties the store by
bulk removal with no per-item teardown.  In particular
`Put a; Put b; Clear` on a fresh pool reports exactly `[a, b]`. -/
theorem C8_clear_destructs_each_item_once {α : Type} (s : PoolState α) :
    clear true s = ({ s with items := [] }, s.items.map PoolItem.value) ∧
    clear false s = ({ s with items := [] }, []) ∧
    (∀ (ttl t1 t2 : Int) (a b : α),
      clear true (put ttl t2 (put ttl t1 (newPool α) a).1 b).1 =
        (newPool α, [a, b])) := by
  refine ⟨?_, ?_, ?_⟩
  · simp [clear, popAllLoop_eq]
  · simp [clear]
  · intro ttl t1 t2 a b
    simp [put, newPool, clear, popAllLoop_eq]

/-- Claim C6: with no construction capability, a `Get` that finds no valid
item in the store fails with "pool is empty" (the Go `PoolEmpty` error);
in particular `New(ttl, nil)` followed by an immediate `Get` does. -/
theorem C6_get_pool_empty {α : Type} (now : Int) (s : PoolState α) :
    ((getLoop now s.items).2 = none → s.closed = false →
      get none now s = ({ s with items := [] }, (none, some "pool is empty"))) ∧
    (∀ t : Int,
      get none t (newPool α) = (newPool α, (none, some "pool is empty"))) := by
  constructor
  · intro hnone hopen
    have h1 := getLoop_none_empty now s.items hnone
    have hfull : getLoop now s.items = ([], none) := by
      rw [← h1, ← hnone]
    simp [get, hopen, hfull]
  · intro t
    simp [get, newPool, getLoop]

/-- Witness for C6: an immediate `Get` on a fresh pool, and a `Get` on a
pool holding only an expired item, both report "pool is empty". -/
theorem C6_get_pool_empty_witness :
    get (α := Nat) none 50 (newPool Nat) =
      (newPool Nat, (none, some "pool is empty")) ∧
    get (α := Nat) none 50 ⟨[⟨10, 3⟩], false⟩ =
      (⟨[], false⟩, (none, some "pool is empty")) :=
  ⟨(C6_get_pool_empty 50 (newPool Nat)).2 50,
   (C6_get_pool_empty 50 ⟨[⟨10, 3⟩], false⟩).1 (by decide) rfl⟩

/-- Claim C5: when `Get`'s pop loop ends without returning a stored item
(pool closed, or store exhausted of valid items) and `NewFunc` is
configured, `Get` returns exactly `NewFunc`'s result pair — value and
error verbatim, no wrapping — and never inserts the fresh value into the
store: the closed branch leaves the store untouched and the exhausted
branch leaves exactly what the loop left (nothing). -/
theorem C5_get_delegates_to_newfunc {α : Type} (r : Option α × Option String)
    (now : Int) (s : PoolState α) :
    (s.closed = true → get (some r) now s = (s, r)) ∧
    (s.closed = false → (getLoop now s.items).2 = none →
      get (some r) now s = ({ s with items := [] }, r)) ∧
    (s.closed = false → s.items = [] → get (some r) now s = (s, r)) := by
  refine ⟨?_, ?_, ?_⟩
  · intro h
    simp [get, h]
  · intro hopen hnone
    have h1 := getLoop_none_empty now s.items hnone
    have hfull : getLoop now s.items = ([], none) := by
      rw [← h1, ← hnone]
    simp [get, hopen, hfull]
  · intro hopen hemp
    obtain ⟨items, closed⟩ := s
    simp at hopen hemp
    subst hopen hemp
    simp [get, getLoop]

/-- Witness for C5: an immediate `Get` on a fresh pool with a constructor
returns the constructor's success result, and likewise propagates the
constructor's error verbatim, leaving the store empty both times. -/
theorem C5_get_delegates_to_newfunc_witness :
    get (α := Nat) (some (some 9, none)) 50 (newPool Nat) =
      (newPool Nat, (some 9, none)) ∧
    get (α := Nat) (some (none, some "dial failed")) 50 (newPool Nat) =
      (newPool Nat, (none, some "dial failed")) :=
  ⟨(C5_get_delegates_to_newfunc (some 9, none) 50 (newPool Nat)).2.2 rfl rfl,
   (C5_get_delegates_to_newfunc (none, some "dial failed") 50
      (newPool Nat)).2.2 rfl rfl⟩

/-- Claim C4: with TTL 0, every `Put` stores the sentinel `expire = 0`,
`Get` returns such an item whenever it reaches the front (regardless of
the clock), and a sweep on an open TTL-0 pool removes nothing and
destroys nothing — so items leave the store only through a `Get` pop, a
`Clear`, or the post-close drain. -/
theorem C4_ttl_zero_never_expires {α : Type} :
    (∀ (t : Int) (s : PoolState α) (v : α), s.closed = false →
      put 0 t s v = ({ s with items := s.items ++ [⟨0, v⟩] }, none)) ∧
    (∀ (now : Int) (v : α) (rest : List (PoolItem α))
        (nf : Option (Option α × Option String)),
      get nf now ⟨⟨0, v⟩ :: rest, false⟩ = (⟨rest, false⟩, (some v, none))) ∧
    (∀ (hasExpireFunc : Bool) (now : Int) (s : PoolState α), s.closed = false →
      checkExpireItems 0 hasExpireFunc now s = (s, [], false)) := by
  refine ⟨?_, ?_, ?_⟩
  · intro t s v h
    simp [put, computeExpire, h]
  · intro now v rest nf
    have hsel : getLoop now (⟨0, v⟩ :: rest) = (rest, some ⟨0, v⟩) := by
      rw [getLoop_cons, if_pos (Or.inl rfl)]
    simp [get, hsel]
  · intro hasExpireFunc now s h
    simp [checkExpireItems, h]

/-- Witness for C4 at concrete states: a TTL-0 `Put`, a `Get` at a huge
clock reading, and a sweep that leaves the store untouched. -/
theorem C4_ttl_zero_never_expires_witness :
    put (α := Nat) 0 5 ⟨[⟨0, 1⟩], false⟩ 2 = (⟨[⟨0, 1⟩, ⟨0, 2⟩], false⟩, none) ∧
    get (α := Nat) none 999999999 ⟨[⟨0, 3⟩], false⟩ =
      (⟨[], false⟩, (some 3, none)) ∧
    checkExpireItems (α := Nat) 0 true 999999999 ⟨[⟨0, 3⟩], false⟩ =
      (⟨[⟨0, 3⟩], false⟩, [], false) :=
  ⟨C4_ttl_zero_never_expires.1 5 ⟨[⟨0, 1⟩], false⟩ 2 rfl,
   C4_ttl_zero_never_expires.2.1 999999999 3 [] none,
   C4_ttl_zero_never_expires.2.2 true 999999999 ⟨[⟨0, 3⟩], false⟩ rfl⟩

/-- Claim C3: a sweep invocation that observes the closed flag drains the
whole store and passes each drained value to `ExpireFunc` exactly once
when that capability is configured (store left untouched when it is
not), then calls `timer.Exit` (modelled from the spec as terminal); the
result does not depend on the TTL or the clock, i.e. neither the TTL-0
early return nor the expiration pass of the open-pool path executes in a
closed-pool invocation. -/
theorem C3_closed_sweep_drains_and_exits {α : Type} (ttl now : Int)
    (s : PoolState α) (h : s.closed = true) :
    checkExpireItems ttl true now s =
      ({ s with items := [] }, s.items.map PoolItem.value, true) ∧
    checkExpireItems ttl false now s = (s, [], true) := by
  constructor
  · simp [checkExpireItems, h, popAllLoop_eq]
  · simp [checkExpireItems, h]

/-- Witness for C3: a closed pool holding an unexpired and a never-expiring
item is fully drained (both values destroyed once) with the exit signal,
even though the open-pool pass would have kept both. -/
theorem C3_closed_sweep_drains_and_exits_witness :
    checkExpireItems (α := Nat) 5000000 true 0 ⟨[⟨1, 4⟩, ⟨0, 6⟩], true⟩ =
      (⟨[], true⟩, [4, 6], true) :=
  (C3_closed_sweep_drains_and_exits 5000000 0 ⟨[⟨1, 4⟩, ⟨0, 6⟩], true⟩ rfl).1

/-- Claim C1: with TTL `d > 0`, `Put` at clock `t` stores the deadline
`expireAt = t + d.Nanoseconds()/1000000` (Go truncating division); the
item is returned by `Get` at any clock `now < expireAt` when it reaches
the front of the store; and at any clock strictly past the deadline the
`Get` pop loop can never again select that specific item, in any store. -/
theorem C1_ttl_pos_respects_deadline {α : Type} (ttl t : Int) (v : α)
    (httl : 0 < ttl) (ht : 0 < t) :
    (∀ s : PoolState α, s.closed = false →
      put ttl t s v =
        ({ s with items := s.items ++ [⟨t + Int.tdiv ttl 1000000, v⟩] }, none)) ∧
    (∀ (rest : List (PoolItem α)) (now : Int)
        (nf : Option (Option α × Option String)),
      now < t + Int.tdiv ttl 1000000 →
      get nf now ⟨⟨t + Int.tdiv ttl 1000000, v⟩ :: rest, false⟩ =
        (⟨rest, false⟩, (some v, none))) ∧
    (∀ (now : Int) (items : List (PoolItem α)) (i : PoolItem α),
      t + Int.tdiv ttl 1000000 < now →
      (getLoop now items).2 = some i → i ≠ ⟨t + Int.tdiv ttl 1000000, v⟩) := by
  have hne : ttl ≠ 0 := by omega
  have htd : 0 ≤ Int.tdiv ttl 1000000 := Int.tdiv_nonneg (by omega) (by omega)
  refine ⟨?_, ?_, ?_⟩
  · intro s h
    simp [put, computeExpire, hne, h]
  · intro rest now nf hnow
    have hsel : getLoop now (⟨t + Int.tdiv ttl 1000000, v⟩ :: rest) =
        (rest, some ⟨t + Int.tdiv ttl 1000000, v⟩) := by
      rw [getLoop_cons, if_pos (Or.inr hnow)]
    simp [get, hsel]
  · intro now items i hlt hsel heq
    have hval := getLoop_sel_valid now items i hsel
    rw [heq] at hval
    simp only [] at hval
    omega

/-- Witness for C1: a 5ms-TTL item put at clock 100 (deadline 105) is
returned by a `Get` at clock 104. -/
theorem C1_ttl_pos_respects_deadline_witness :
    get (α := Nat) none 104 ⟨[⟨100 + Int.tdiv 5000000 1000000, 7⟩], false⟩ =
      (⟨[], false⟩, (some 7, none)) :=
  (C1_ttl_pos_respects_deadline 5000000 100 7 (by decide) (by decide)).2.1
    [] 104 none (by decide)

/-- Claim C2 as stated is false on the code: with a negative TTL the
stored deadline is at most the insertion clock, so the `Get` validity
check `expire == 0 || expire > now` fails at every clock from insertion
on, and `Get` silently discards the item instead of returning it.
Concretely: TTL `-1ns`, `Put` at clock 100 stores `expire = 100`, and
the immediate `Get` at the same clock yields "pool is empty", not the
item. -/
theorem C2_counterexample :
    put (α := Nat) (-1) 100 (newPool Nat) 7 = (⟨[⟨100, 7⟩], false⟩, none) ∧
    get (α := Nat) none 100 ⟨[⟨100, 7⟩], false⟩ =
      (⟨[], false⟩, (none, some "pool is empty")) := by
  constructor <;> rfl

/-- Claim C2 amended: with TTL `d < 0`, `Put` at clock `t` stores
`expireAt = t + d.Nanoseconds()/1000000 ≤ t`; an item not yet consumed
is discarded (and destructed when the capability exists) by the next
sweep, since every such deadline is already past; and a `Get` never
returns such an item at any clock `now ≥ t` — it is discarded by the
pop loop, not "returned normally" (excluding the degenerate deadline
`0`, which the code conflates with the never-expires sentinel). -/
theorem C2_ttl_neg_discards {α : Type} (ttl t : Int) (v : α)
    (httl : ttl < 0) (ht : 0 < t) :
    (∀ s : PoolState α, s.closed = false →
      put ttl t s v =
        ({ s with items := s.items ++ [⟨t + Int.tdiv ttl 1000000, v⟩] }, none)) ∧
    t + Int.tdiv ttl 1000000 ≤ t ∧
    (∀ (hasExpireFunc : Bool) (now : Int) (items : List (PoolItem α)),
      t ≤ now → (∀ j ∈ items, j.expire ≤ now) →
      checkExpireItems ttl hasExpireFunc now ⟨items, false⟩ =
        (⟨[], false⟩,
         (if hasExpireFunc then items.map PoolItem.value else []), false)) ∧
    (∀ (now : Int) (items : List (PoolItem α)) (i : PoolItem α),
      t ≤ now → t + Int.tdiv ttl 1000000 ≠ 0 →
      (getLoop now items).2 = some i → i ≠ ⟨t + Int.tdiv ttl 1000000, v⟩) := by
  have hne : ttl ≠ 0 := by omega
  have htd : Int.tdiv ttl 1000000 ≤ 0 := by
    have h1 : 0 ≤ Int.tdiv (-ttl) 1000000 := Int.tdiv_nonneg (by omega) (by omega)
    rw [Int.neg_tdiv] at h1
    omega
  refine ⟨?_, by omega, ?_, ?_⟩
  · intro s h
    simp [put, computeExpire, hne, h]
  · intro hasExpireFunc now items hnow hall
    have hsweep := sweepLoop_all_expired hasExpireFunc now items (-1) (by omega) hall
    simp [checkExpireItems, hne, hsweep]
  · intro now items i hnow hdead hsel heq
    have hval := getLoop_sel_valid now items i hsel
    rw [heq] at hval
    simp only [] at hval
    omega

/-- Witness for the amended C2: a `-1ns`-TTL item put at clock 100 is
drained and destructed by the sweep at clock 100, and at clock 101 the
pop loop never selects it. -/
theorem C2_ttl_neg_discards_witness :
    checkExpireItems (α := Nat) (-1) true 100 ⟨[⟨100, 7⟩], false⟩ =
      (⟨[], false⟩, [7], false) ∧
    ((getLoop (α := Nat) 101 [⟨100, 7⟩]).2 = some ⟨100, 7⟩ → False) :=
  ⟨(C2_ttl_neg_discards (-1) 100 7 (by decide) (by decide)).2.2.1 true 100
     [⟨100, 7⟩] (by decide) (by decide),
   fun h => (C2_ttl_neg_discards (-1) 100 7 (by decide) (by decide)).2.2.2 101
     [⟨100, 7⟩] ⟨100, 7⟩ (by decide) (by decide) h (by decide)⟩

/-- Claim C9: an open-pool sweep with nonzero TTL pops front items one at
a time against the single captured clock reading, destroying each
expired one (`expire ≤ now`) when the capability exists, and on the
first not-yet-expired item pushes it back to the front and stops,
leaving that item and everything behind it untouched. -/
theorem C9_sweep_stops_at_first_live_item {α : Type} (ttl now : Int)
    (hasExpireFunc : Bool) (pre post : List (PoolItem α)) (i : PoolItem α)
    (httl : ttl ≠ 0) (hnow : 0 ≤ now)
    (hpre : ∀ j ∈ pre, j.expire ≤ now) (hi : now < i.expire) :
    checkExpireItems ttl hasExpireFunc now ⟨pre ++ i :: post, false⟩ =
      (⟨i :: post, false⟩,
       (if hasExpireFunc then pre.map PoolItem.value else []), false) := by
  have hsweep := sweepLoop_stop_frame hasExpireFunc now pre post i (-1)
    (by omega) hpre hi
  simp [checkExpireItems, httl, hsweep]

/-- Witness for C9: two expired items (one with `expire = now`) are
popped and destroyed, the first live item is pushed back and the
never-expiring item behind it is untouched. -/
theorem C9_sweep_stops_at_first_live_item_witness :
    checkExpireItems (α := Nat) 5000000 true 10
        ⟨[⟨5, 1⟩, ⟨10, 2⟩, ⟨20, 3⟩, ⟨0, 4⟩], false⟩ =
      (⟨[⟨20, 3⟩, ⟨0, 4⟩], false⟩, [1, 2], false) :=
  C9_sweep_stops_at_first_live_item 5000000 10 true [⟨5, 1⟩, ⟨10, 2⟩]
    [⟨0, 4⟩] ⟨20, 3⟩ (by decide) (by decide) (by decide) (by decide)

/-- Claim C10: for a TTL strictly between 0 and one millisecond the
whole-millisecond truncation `d.Nanoseconds()/1000000` is `0`, so `Put`
stores `expireAt` equal to the insertion clock itself and every `Get` or
sweep check at a clock at or past that instant already treats the item
as expired; in general, for any nonzero TTL the stored deadline is the
insertion clock plus the truncated millisecond quotient, not
`put_time + d`. -/
theorem C10_subms_ttl_expires_immediately {α : Type} (ttl t now : Int)
    (v : α) (h1 : 0 < ttl) (h2 : ttl < 1000000) (ht : 0 < t)
    (hnow : t ≤ now) :
    computeExpire ttl t = t ∧
    (∀ s : PoolState α, s.closed = false →
      put ttl t s v = ({ s with items := s.items ++ [⟨t, v⟩] }, none)) ∧
    (∀ rest : List (PoolItem α),
      getLoop now (⟨t, v⟩ :: rest) = getLoop now rest) ∧
    (∀ (hasExpireFunc : Bool) (le : Int), le ≤ now →
      sweepLoop hasExpireFunc now le [⟨t, v⟩] =
        ([], if hasExpireFunc then [v] else [])) ∧
    (∀ ttl2 : Int, ttl2 ≠ 0 →
      computeExpire ttl2 t = t + Int.tdiv ttl2 1000000) := by
  have hne : ttl ≠ 0 := by omega
  have htd : Int.tdiv ttl 1000000 = 0 :=
    Int.tdiv_eq_zero_of_lt (by omega) h2
  have hexp : computeExpire ttl t = t := by
    simp [computeExpire, hne, htd]
  refine ⟨hexp, ?_, ?_, ?_, ?_⟩
  · intro s h
    simp [put, h, hexp]
  · intro rest
    rw [getLoop_cons, if_neg]
    simp only [not_or]
    constructor <;> omega
  · intro hasExpireFunc le hle
    have := sweepLoop_all_expired hasExpireFunc now [⟨t, v⟩] le hle
      (by intro j hj; simp at hj; subst hj; simpa using hnow)
    simpa using this
  · intro ttl2 hne2
    simp [computeExpire, hne2]

/-- Witness for C10: TTL `999999ns` put at clock 100 stores deadline 100,
and the `Get` pop loop at clock 100 discards the item instead of
selecting it. -/
theorem C10_subms_ttl_expires_immediately_witness :
    computeExpire 999999 100 = 100 ∧
    getLoop (α := Nat) 100 [⟨100, 7⟩] = getLoop 100 [] :=
  ⟨(C10_subms_ttl_expires_immediately (α := Nat) 999999 100 100 7
      (by decide) (by decide) (by decide) (by decide)).1,
   (C10_subms_ttl_expires_immediately (α := Nat) 999999 100 100 7
      (by decide) (by decide) (by decide) (by decide)).2.2.1 []⟩

end GoPool
